import Mathlib

/-!
# Verification of linux-blurcam's daemon state machine

Shallow embedding of `src/linuxcam/daemon.py` (class `BlurDaemon`: the
consumer-count scan `_get_consumer_count`, the inotify watcher thread
`_inotify_watcher`, and the main loop `run`) and of
`src/linuxcam/config.py` (`load_config` over `DEFAULT_CONFIG`).

Modelling conventions:
- The environment of one main-loop iteration (whether the consumer event
  flag was observed set and with which `has_consumers` value, whether a
  `cv2.VideoCapture` open would succeed, whether `cap.read()` would
  succeed, the current config-file mtime and contents, and whether an
  unexpected exception is raised this tick) is a `TickInput`.
- A `cv2.VideoCapture` object is a `Cap` with an identity and an
  `opened` flag (`isOpened()`); `cap = None` in Python is `none`.
- Side effects of a tick (frames sent to the virtual camera, opens,
  releases, model creation, logging) are recorded as a list of `Act`.
- Frames are abstract: the all-zero idle frame is `Frame.filler`; a
  processed frame records the captured raw frame and the blur/threshold
  parameters fed to `get_mask` / `apply_background_blur`.
-/

namespace Blurcam

/-! ## config.py -/

/-- A JSON value as stored in the config file (ints, strings, and the
rational 0.5 used by the `threshold` default). -/
inductive JVal where
  | jint (n : Int)
  | jrat (num : Int) (den : Nat)
  | jstr (s : String)
deriving DecidableEq, Repr

/-- `DEFAULT_CONFIG` from `src/linuxcam/config.py`. -/
def DEFAULT_CONFIG : List (String × JVal) :=
  [("blur", .jint 35),
   ("threshold", .jrat 1 2),
   ("input", .jint 0),
   ("output", .jstr "/dev/video10"),
   ("width", .jint 640),
   ("height", .jint 480),
   ("fps", .jint 30)]

/-- The states the config file can be in, as `load_config` distinguishes
them: missing file, `IOError` on open/read, `json.JSONDecodeError`, or a
successfully parsed JSON object (a dict: keys already de-duplicated by
the JSON parser). -/
inductive ConfigFile where
  | absent
  | unreadable
  | invalidJson
  | obj (entries : List (String × JVal))
deriving DecidableEq, Repr

/-- Python's `{**DEFAULT_CONFIG, **saved}`: every default key, with the
saved value taking precedence when present, followed by the saved keys
that are not default keys, in order. -/
def mergeConfig (saved : List (String × JVal)) : List (String × JVal) :=
  DEFAULT_CONFIG.map (fun kv => (kv.1, ((saved.lookup kv.1).getD kv.2)))
    ++ saved.filter (fun kv => (DEFAULT_CONFIG.lookup kv.1).isNone)

/-- `load_config` from `src/linuxcam/config.py`: returns the merge of the
defaults with the saved dict when the file exists and parses, and a copy
of `DEFAULT_CONFIG` when the file is absent, unreadable (`IOError`) or
invalid JSON (`json.JSONDecodeError`), both caught by the `except`. -/
def load_config : ConfigFile → List (String × JVal)
  | .obj saved => mergeConfig saved
  | _ => DEFAULT_CONFIG

/-! ## daemon.py: `_get_consumer_count` -/

/-- One `/proc/<pid>` entry: the pid and, if `os.listdir` of its `fd`
directory succeeds, the per-fd `os.readlink` results (each `none` when
the readlink raises `OSError`/`PermissionError`, skipped by the inner
`except`). -/
structure Proc where
  pid : Nat
  fds : Option (List (Option String))
deriving DecidableEq, Repr

/-- The inner fd loop of `_get_consumer_count`: scan the fds of one
process, and report whether the `break` (after `count += 1`) was
reached, i.e. whether some readable link target equals the device. -/
def scanFds (device : String) : List (Option String) → Bool
  | [] => false
  | some target :: rest =>
      if target = device then true else scanFds device rest
  | none :: rest => scanFds device rest

/-- The body of the outer loop of `_get_consumer_count`: skip the
daemon's own pid (`if pid == my_pid: continue`) and any process whose
fd directory listing raises (outer `except`), otherwise add one when
the fd scan reaches its `break`. -/
def countProc (myPid : Nat) (device : String) (count : Nat)
    (p : Proc) : Nat :=
  if p.pid = myPid then count
  else
    match p.fds with
    | none => count
    | some fds => if scanFds device fds then count + 1 else count

/-- `BlurDaemon._get_consumer_count`: walk the process table, skipping
the daemon's own pid and any process whose fd directory is unreadable,
and add one per process holding the device open (the `break` caps each
process's contribution at one). -/
def get_consumer_count (myPid : Nat) (device : String)
    (procs : List Proc) : Nat :=
  procs.foldl (countProc myPid device) 0

/-- Spec-side reading of "process holding at least one open file handle
resolving to the output device path": some fd of the process has a
readable link target equal to the device path. -/
def holdsDevice (device : String) (p : Proc) : Bool :=
  match p.fds with
  | none => false
  | some fds => fds.any (fun t => t = some device)

/-! ## daemon.py: `_inotify_watcher` -/

/-- A device notification as the watcher classifies it, together with
the result of the `_get_consumer_count` recount performed after the
settle delay. -/
inductive Notif where
  | nopen (recount : Nat)
  | nclose (recount : Nat)
deriving DecidableEq, Repr

/-- One iteration of the watcher's per-event body: given the shared
`has_consumers` value and a notification with its recount, return the
new `has_consumers` and whether `consumer_event.set()` was called. -/
def watcherStep (hc : Bool) : Notif → Bool × Bool
  | .nopen recount =>
      if recount > 0 then (true, true) else (hc, false)
  | .nclose recount =>
      if recount = 0 then (false, true) else (hc, false)

/-- Fold `watcherStep` over a notification list, collecting the
`has_consumers` value published at each `consumer_event.set()`. -/
def watcherSignals (hc : Bool) : List Notif → List Bool
  | [] => []
  | n :: rest =>
      let p := watcherStep hc n
      (if p.2 then [p.1] else []) ++ watcherSignals p.1 rest

/-- Result of the watcher thread: the signals it published and whether
the watch-setup warning was printed. -/
structure WatcherRes where
  signals : List Bool
  warned : Bool
deriving DecidableEq, Repr

/-- `BlurDaemon._inotify_watcher`: if `inotify.add_watch` on the device
fails, print the warning and return (no signal is ever published);
otherwise process the notifications starting from `has_consumers =
False` (set in `__init__`). -/
def inotify_watcher (setupOk : Bool) (ns : List Notif) : WatcherRes :=
  if setupOk then ⟨watcherSignals false ns, false⟩ else ⟨[], true⟩

/-! ## daemon.py: `run` main loop -/

/-- A `cv2.VideoCapture` object: an identity (to track that a handle is
not replaced) and its `isOpened()` status. -/
structure Cap where
  id : Nat
  opened : Bool
deriving DecidableEq, Repr

/-- Mutable state of the main loop across ticks: `self.blur_active`,
the lazily created `segmentation` model handle, the webcam `cap`, the
loop-local `blur_strength`/`threshold`/`config_mtime`, a ghost record of
the most recent `VideoCapture` open attempt's outcome, and a counter
supplying fresh handle identities. -/
structure DaemonSt where
  blur_active : Bool
  segmentation : Option Nat
  cap : Option Cap
  blur_strength : Nat
  threshold : Nat
  config_mtime : Nat
  lastOpenOk : Option Bool
  fresh : Nat
deriving DecidableEq, Repr

/-- `blur_strength` adjustment: `if blur % 2 == 0: blur += 1`. -/
def adjustOdd (b : Nat) : Nat := if b % 2 = 0 then b + 1 else b

/-- State at entry to the main loop: Idle, no model, no webcam, the
parameters read from the initial config. -/
def initSt (blur0 threshold0 mtime0 : Nat) : DaemonSt :=
  { blur_active := false
    segmentation := none
    cap := none
    blur_strength := adjustOdd blur0
    threshold := threshold0
    config_mtime := mtime0
    lastOpenOk := none
    fresh := 0 }

/-- A frame written to the virtual camera: the all-zero `black_frame`,
or a processed frame recording the captured raw frame and the
threshold/blur parameters passed to `get_mask` and
`apply_background_blur`. -/
inductive Frame where
  | filler
  | processed (raw : Nat) (threshold : Nat) (blur : Nat)
deriving DecidableEq, Repr

/-- Observable side effects of the loop body. -/
inductive Act where
  | createSeg
  | openCap (ok : Bool)
  | logOpenFail
  | releaseCap (id : Nat)
  | sendFrame (f : Frame)
deriving DecidableEq, Repr

/-- Environment of one loop iteration. `event = some hc` means
`consumer_event.is_set()` was true with `has_consumers = hc` at the
check; `openOk`/`readOk` are the outcomes a `VideoCapture` open or read
would have this tick; `cfgMtime`, `cfgBlur`, `cfgThreshold` are
`get_config_mtime()` and the config contents this tick; `raiseErr`
models an unexpected exception escaping the loop body. -/
structure TickInput where
  event : Option Bool
  openOk : Bool
  readOk : Bool
  frame : Nat
  cfgMtime : Nat
  cfgBlur : Nat
  cfgThreshold : Nat
  raiseErr : Bool
deriving DecidableEq, Repr

/-- `cap is None or not cap.isOpened()`. -/
def capNeedsOpen : Option Cap → Bool
  | none => true
  | some c => !c.opened

/-- `cap is not None and cap.isOpened()`. -/
def capIsOpened : Option Cap → Bool
  | none => false
  | some c => c.opened

/-- The `has_consumers and not blur_active` branch: set `blur_active`,
create the segmentation model if absent, and if the cap is absent or
unopened attempt a `VideoCapture` open; on failure log the error and
set `blur_active` back to `False` (the unopened cap object remains). -/
def startBlur (s : DaemonSt) (openOk : Bool) : DaemonSt × List Act :=
  let s1 := { s with blur_active := true }
  let p2 :=
    if s1.segmentation.isNone then
      ({ s1 with segmentation := some s1.fresh, fresh := s1.fresh + 1 },
       [Act.createSeg])
    else (s1, [])
  let s2 := p2.1
  if capNeedsOpen s2.cap then
    let c : Cap := { id := s2.fresh, opened := openOk }
    let s3 := { s2 with
      cap := some c
      fresh := s2.fresh + 1
      lastOpenOk := some openOk }
    if openOk then (s3, p2.2 ++ [Act.openCap true])
    else ({ s3 with blur_active := false },
          p2.2 ++ [Act.openCap false, Act.logOpenFail])
  else (s2, p2.2)

/-- The `not has_consumers and blur_active` branch: clear `blur_active`
and release the webcam immediately (`cap.release(); cap = None`). -/
def stopBlur (s : DaemonSt) : DaemonSt × List Act :=
  match s.cap with
  | some c => ({ s with blur_active := false, cap := none },
               [Act.releaseCap c.id])
  | none => ({ s with blur_active := false }, [])

/-- Consumer-event processing at the top of the tick
(`if self.consumer_event.is_set(): ...`). -/
def stepEvent (s : DaemonSt) (i : TickInput) : DaemonSt × List Act :=
  match i.event with
  | none => (s, [])
  | some hc =>
      if hc && !s.blur_active then startBlur s i.openOk
      else if !hc && s.blur_active then stopBlur s
      else (s, [])

/-- Config-change processing: on a newer mtime reload the config and
refresh `blur_strength` (odd-adjusted) and `threshold`. -/
def stepConfig (s : DaemonSt) (i : TickInput) : DaemonSt :=
  if i.cfgMtime > s.config_mtime then
    { s with
      config_mtime := i.cfgMtime
      blur_strength := adjustOdd i.cfgBlur
      threshold := i.cfgThreshold }
  else s

/-- Frame production: if `blur_active and cap is not None and
cap.isOpened()`, read a frame; on success send the processed frame,
otherwise send `black_frame`; when idle send `black_frame`. -/
def stepFrame (s : DaemonSt) (i : TickInput) : List Act :=
  if s.blur_active && capIsOpened s.cap then
    if i.readOk then
      [Act.sendFrame (.processed i.frame s.threshold s.blur_strength)]
    else [Act.sendFrame .filler]
  else [Act.sendFrame .filler]

/-- One full iteration of the `while not self.stop_event.is_set()`
loop body, in source order: consumer event, config check, frame. -/
def step (s : DaemonSt) (i : TickInput) : DaemonSt × List Act :=
  let p1 := stepEvent s i
  let s2 := stepConfig p1.1 i
  (s2, p1.2 ++ stepFrame s2 i)

/-- Result of running the loop over a tick sequence: final state,
accumulated actions, and whether an exception escaped. -/
structure LoopRes where
  st : DaemonSt
  acts : List Act
  exc : Bool
deriving DecidableEq, Repr

/-- The main loop over a finite tick sequence; the sequence ending
models the stop flag becoming set, and a tick with `raiseErr` models an
unexpected exception aborting the loop. -/
def runLoop (s : DaemonSt) : List TickInput → LoopRes
  | [] => ⟨s, [], false⟩
  | i :: rest =>
      if i.raiseErr then ⟨s, [], true⟩
      else
        let p := step s i
        let r := runLoop p.1 rest
        ⟨r.st, p.2 ++ r.acts, r.exc⟩

/-- Result of `BlurDaemon.run`: the return code and the state and
actions after the `finally` block. -/
structure RunRes where
  code : Int
  st : DaemonSt
  acts : List Act
deriving DecidableEq, Repr

/-- `BlurDaemon.run`: missing device returns 1 before anything starts;
a failing `pyvirtualcam.Camera` constructor is caught by the `except`
(return 1, `finally` finds `cap is None`); otherwise run the loop, and
in `finally` release `cap` if held; an escaped exception yields return
code 1, normal stop yields 0. -/
def run (deviceExists camOk : Bool) (s0 : DaemonSt)
    (inputs : List TickInput) : RunRes :=
  if deviceExists = false then ⟨1, s0, []⟩
  else if camOk = false then ⟨1, s0, []⟩
  else
    let r := runLoop s0 inputs
    match r.st.cap with
    | some c =>
        ⟨if r.exc then 1 else 0, { r.st with cap := none },
         r.acts ++ [Act.releaseCap c.id]⟩
    | none => ⟨if r.exc then 1 else 0, r.st, r.acts⟩

/-! ## Helper lemmas -/

theorem scanFds_eq_any (device : String) (fds : List (Option String)) :
    scanFds device fds = fds.any (fun t => t = some device) := by
  induction fds with
  | nil => rfl
  | cons t rest ih =>
      cases t with
      | none => simpa [scanFds] using ih
      | some tgt => by_cases h : tgt = device <;> simp [scanFds, h, ih]

theorem countProc_foldl (myPid : Nat) (device : String)
    (procs : List Proc) (acc : Nat) :
    procs.foldl (countProc myPid device) acc
      = acc + (procs.filter
          (fun p => p.pid != myPid && holdsDevice device p)).length := by
  induction procs generalizing acc with
  | nil => simp
  | cons p rest ih =>
      rw [List.foldl_cons, ih]
      by_cases hpid : p.pid = myPid
      · simp [countProc, holdsDevice, hpid]
      · cases hfds : p.fds with
        | none => simp [countProc, holdsDevice, hpid, hfds]
        | some fds =>
            by_cases hscan : scanFds device fds = true
            · have hany := (scanFds_eq_any device fds) ▸ hscan
              simp [countProc, holdsDevice, hpid, hfds, hscan, hany]
              omega
            · have hany := (scanFds_eq_any device fds) ▸ hscan
              simp [countProc, holdsDevice, hpid, hfds, hscan, hany]

/-! ## Claim theorems: consumer counting and the watcher -/

/-- C6: `_get_consumer_count` returns the number of processes in the
table, the daemon's own pid excluded, that hold at least one open file
handle resolving to the output device path; each such process
contributes exactly one regardless of how many matching handles it
holds, and the result is a natural number. -/
theorem get_consumer_count_spec (myPid : Nat) (device : String)
    (procs : List Proc) :
    get_consumer_count myPid device procs
      = (procs.filter
          (fun p => p.pid != myPid && holdsDevice device p)).length := by
  simpa using countProc_foldl myPid device procs 0

/-- C2 counterexample: with `has_consumers` already true, an open
notification whose recount is still positive leaves the boolean
unchanged (no flip), yet the watcher sets the edge-event signal —
refuting "it does not signal when a recount leaves the boolean
unchanged". -/
theorem watcher_signals_without_flip :
    (watcherStep true (Notif.nopen 1)).1 = true
    ∧ (watcherStep true (Notif.nopen 1)).2 = true := by
  decide

/-- C2 (amended): the watcher signals and updates `has_consumers`
exactly when an open notification's recount is positive or a close
notification's recount is zero — so it can signal without a flip
(recount leaving the boolean unchanged still signals when it matches
the notification's direction), and a flip opposing the notification's
direction (open with recount zero, close with positive recount) is
ignored; when it does not signal, `has_consumers` is left unchanged. -/
theorem watcherStep_characterization (hc : Bool) (n : Notif) :
    ((watcherStep hc n).2 = true ↔
      ((∃ r, n = Notif.nopen r ∧ 0 < r)
        ∨ (∃ r, n = Notif.nclose r ∧ r = 0)))
    ∧ ((watcherStep hc n).2 = false → (watcherStep hc n).1 = hc)
    ∧ (∀ r, n = Notif.nopen r → 0 < r → (watcherStep hc n).1 = true)
    ∧ (∀ r, n = Notif.nclose r → r = 0 → (watcherStep hc n).1 = false) := by
  cases n with
  | nopen r =>
      refine ⟨?_, ?_, ?_, ?_⟩ <;>
        by_cases h : 0 < r <;>
          simp [watcherStep, h, Nat.pos_iff_ne_zero] <;> omega
  | nclose r =>
      refine ⟨?_, ?_, ?_, ?_⟩ <;>
        by_cases h : r = 0 <;>
          simp [watcherStep, h]

/-- Closed witness for the amended C2 characterization at a concrete
notification. -/
theorem watcherStep_characterization_witness :
    (watcherStep false (Notif.nopen 1)).2 = true :=
  (watcherStep_characterization false (Notif.nopen 1)).1.mpr
    (Or.inl ⟨1, rfl, by decide⟩)

/-! ## Config lemmas -/

theorem lookup_append_right (l1 l2 : List (String × JVal)) (k : String)
    (h : l1.lookup k = none) : (l1 ++ l2).lookup k = l2.lookup k := by
  induction l1 with
  | nil => rfl
  | cons kv rest ih =>
      rcases kv with ⟨a, b⟩
      by_cases hk : k == a
      · simp [List.lookup, hk] at h
      · simp only [List.cons_append, List.lookup, hk] at h ⊢
        exact ih h

theorem lookup_filter_eq (l : List (String × JVal))
    (p : String × JVal → Bool) (k : String)
    (hk : ∀ v, p (k, v) = true) :
    (l.filter p).lookup k = l.lookup k := by
  induction l with
  | nil => rfl
  | cons kv rest ih =>
      rcases kv with ⟨a, b⟩
      by_cases ha : a = k
      · subst ha
        simp [List.filter, hk b, List.lookup]
      · have hb : (k == a) = false := beq_eq_false_iff_ne.mpr (Ne.symm ha)
        by_cases hp : p (a, b) = true
        · simp only [List.filter, hp, List.lookup, hb]
          exact ih
        · simp only [List.filter, Bool.not_eq_true] at hp
          simp only [List.filter, hp, List.lookup, hb]
          exact ih

/-- C10: for every state of the configuration file — absent, unreadable,
invalid JSON, or a parsed object with any set of keys — `load_config`
returns without raising a dict containing every key of `DEFAULT_CONFIG`
(blur, threshold, input, output, width, height, fps), with values from
the file taking precedence over the defaults for every key present in
the file; in the three error states the result is exactly the
defaults. -/
theorem load_config_defaults (fs : ConfigFile) :
    (∀ kv ∈ DEFAULT_CONFIG, ((load_config fs).lookup kv.1).isSome)
    ∧ (∀ saved k v, fs = ConfigFile.obj saved → saved.lookup k = some v →
        (load_config fs).lookup k = some v)
    ∧ (fs = ConfigFile.absent ∨ fs = ConfigFile.unreadable
        ∨ fs = ConfigFile.invalidJson → load_config fs = DEFAULT_CONFIG) := by
  refine ⟨?_, ?_, ?_⟩
  · intro kv hkv
    cases fs with
    | obj saved =>
        fin_cases hkv <;>
          simp [load_config, mergeConfig, DEFAULT_CONFIG, List.lookup]
    | absent => fin_cases hkv <;> decide
    | unreadable => fin_cases hkv <;> decide
    | invalidJson => fin_cases hkv <;> decide
  · intro saved k v hfs hsv
    subst hfs
    show (mergeConfig saved).lookup k = some v
    by_cases h1 : k = "blur"
    · subst h1; simp [mergeConfig, DEFAULT_CONFIG, List.lookup, hsv]
    · by_cases h2 : k = "threshold"
      · subst h2; simp [mergeConfig, DEFAULT_CONFIG, List.lookup, hsv]
      · by_cases h3 : k = "input"
        · subst h3; simp [mergeConfig, DEFAULT_CONFIG, List.lookup, hsv]
        · by_cases h4 : k = "output"
          · subst h4; simp [mergeConfig, DEFAULT_CONFIG, List.lookup, hsv]
          · by_cases h5 : k = "width"
            · subst h5; simp [mergeConfig, DEFAULT_CONFIG, List.lookup, hsv]
            · by_cases h6 : k = "height"
              · subst h6
                simp [mergeConfig, DEFAULT_CONFIG, List.lookup, hsv]
              · by_cases h7 : k = "fps"
                · subst h7
                  simp [mergeConfig, DEFAULT_CONFIG, List.lookup, hsv]
                · have hnone :
                      (DEFAULT_CONFIG.map (fun kv =>
                        (kv.1, ((saved.lookup kv.1).getD kv.2)))).lookup k
                        = none := by
                    simp [DEFAULT_CONFIG, List.lookup,
                      beq_eq_false_iff_ne.mpr h1, beq_eq_false_iff_ne.mpr h2,
                      beq_eq_false_iff_ne.mpr h3, beq_eq_false_iff_ne.mpr h4,
                      beq_eq_false_iff_ne.mpr h5, beq_eq_false_iff_ne.mpr h6,
                      beq_eq_false_iff_ne.mpr h7]
                  rw [mergeConfig, lookup_append_right _ _ _ hnone,
                    lookup_filter_eq]
                  · exact hsv
                  · intro v'
                    simp [DEFAULT_CONFIG, List.lookup,
                      beq_eq_false_iff_ne.mpr h1, beq_eq_false_iff_ne.mpr h2,
                      beq_eq_false_iff_ne.mpr h3, beq_eq_false_iff_ne.mpr h4,
                      beq_eq_false_iff_ne.mpr h5, beq_eq_false_iff_ne.mpr h6,
                      beq_eq_false_iff_ne.mpr h7]
  · rintro (h | h | h) <;> subst h <;> rfl

/-- Closed witness for C10: a config file carrying only `blur` yields a
dict where `blur` comes from the file and `fps` keeps its default. -/
theorem load_config_defaults_witness :
    (load_config (ConfigFile.obj [("blur", JVal.jint 5)])).lookup "blur"
      = some (JVal.jint 5)
    ∧ ((load_config (ConfigFile.obj [("blur", JVal.jint 5)])).lookup
        "fps").isSome := by
  constructor
  · exact (load_config_defaults _).2.1 _ "blur" _ rfl (by decide)
  · exact (load_config_defaults _).1 ("fps", JVal.jint 30) (by decide)

/-! ## Main-loop helper lemmas and invariant -/

theorem capNeedsOpen_eq (c : Option Cap) :
    capNeedsOpen c = !capIsOpened c := by
  cases c <;> rfl

/-- The handle invariant of the main loop: the webcam is open exactly
when blur is active, and blur can only be active after a successful
open attempt. -/
def Inv (s : DaemonSt) : Prop :=
  capIsOpened s.cap = s.blur_active
  ∧ (s.blur_active = true → s.lastOpenOk = some true)

theorem inv_initSt (blur0 t0 m0 : Nat) : Inv (initSt blur0 t0 m0) := by
  constructor <;> simp [initSt, capIsOpened]

theorem stepConfig_fields (s : DaemonSt) (i : TickInput) :
    (stepConfig s i).cap = s.cap
    ∧ (stepConfig s i).blur_active = s.blur_active
    ∧ (stepConfig s i).segmentation = s.segmentation
    ∧ (stepConfig s i).lastOpenOk = s.lastOpenOk := by
  unfold stepConfig
  split <;> exact ⟨rfl, rfl, rfl, rfl⟩

theorem startBlur_spec (s : DaemonSt) (ok : Bool)
    (h : capNeedsOpen s.cap = true) :
    (startBlur s ok).1.blur_active = ok
    ∧ (∃ n, (startBlur s ok).1.cap = some ⟨n, ok⟩)
    ∧ (startBlur s ok).1.lastOpenOk = some ok
    ∧ Act.openCap ok ∈ (startBlur s ok).2
    ∧ (ok = false → Act.logOpenFail ∈ (startBlur s ok).2) := by
  unfold startBlur
  by_cases hseg : s.segmentation.isNone <;> cases ok <;> simp [hseg, h]

theorem startBlur_seg_some (s : DaemonSt) (ok : Bool) (x : Nat)
    (h : s.segmentation = some x) :
    (startBlur s ok).1.segmentation = some x
    ∧ Act.createSeg ∉ (startBlur s ok).2 := by
  unfold startBlur
  have hiso : s.segmentation.isNone = false := by simp [h]
  by_cases hno : capNeedsOpen s.cap = true <;> cases ok <;>
    simp [hiso, hno, h]

theorem startBlur_createSeg_mem (s : DaemonSt) (ok : Bool)
    (h : Act.createSeg ∈ (startBlur s ok).2) : s.segmentation = none := by
  cases hseg : s.segmentation with
  | none => rfl
  | some x => exact absurd h (startBlur_seg_some s ok x hseg).2

theorem stopBlur_spec (s : DaemonSt) :
    (stopBlur s).1.blur_active = false
    ∧ (stopBlur s).1.cap = none
    ∧ (stopBlur s).1.segmentation = s.segmentation
    ∧ (∀ c, s.cap = some c → Act.releaseCap c.id ∈ (stopBlur s).2)
    ∧ Act.createSeg ∉ (stopBlur s).2 := by
  unfold stopBlur
  cases hc : s.cap <;> simp [hc]

theorem stepEvent_none (s : DaemonSt) (i : TickInput) (h : i.event = none) :
    stepEvent s i = (s, []) := by
  unfold stepEvent; rw [h]

theorem stepEvent_attach (s : DaemonSt) (i : TickInput)
    (he : i.event = some true) (hb : s.blur_active = false) :
    stepEvent s i = startBlur s i.openOk := by
  unfold stepEvent; rw [he]; simp [hb]

theorem stepEvent_detach (s : DaemonSt) (i : TickInput)
    (he : i.event = some false) (hb : s.blur_active = true) :
    stepEvent s i = stopBlur s := by
  unfold stepEvent; rw [he]; simp [hb]

theorem stepEvent_noop_attach (s : DaemonSt) (i : TickInput)
    (he : i.event = some true) (hb : s.blur_active = true) :
    stepEvent s i = (s, []) := by
  unfold stepEvent; rw [he]; simp [hb]

theorem stepEvent_noop_detach (s : DaemonSt) (i : TickInput)
    (he : i.event = some false) (hb : s.blur_active = false) :
    stepEvent s i = (s, []) := by
  unfold stepEvent; rw [he]; simp [hb]

theorem inv_stepEvent (s : DaemonSt) (i : TickInput) (h : Inv s) :
    Inv (stepEvent s i).1 := by
  rcases h with ⟨h1, h2⟩
  cases he : i.event with
  | none => rw [stepEvent_none s i he]; exact ⟨h1, h2⟩
  | some hc =>
      cases hc with
      | false =>
          cases hb : s.blur_active with
          | false => rw [stepEvent_noop_detach s i he hb]; exact ⟨hb ▸ h1, h2⟩
          | true =>
              rw [stepEvent_detach s i he hb]
              have hs := stopBlur_spec s
              refine ⟨?_, ?_⟩
              · rw [hs.2.1, hs.1]; rfl
              · intro hcontr; rw [hs.1] at hcontr; exact absurd hcontr (by simp)
      | true =>
          cases hb : s.blur_active with
          | true => rw [stepEvent_noop_attach s i he hb]; exact ⟨hb ▸ h1, h2⟩
          | false =>
              rw [stepEvent_attach s i he hb]
              have hneed : capNeedsOpen s.cap = true := by
                rw [capNeedsOpen_eq, h1, hb]; rfl
              have hs := startBlur_spec s i.openOk hneed
              obtain ⟨n, hcap⟩ := hs.2.1
              refine ⟨?_, ?_⟩
              · rw [hcap, hs.1]; rfl
              · intro hblur
                rw [hs.1] at hblur
                rw [hs.2.2.1, hblur]

theorem inv_step (s : DaemonSt) (i : TickInput) (h : Inv s) :
    Inv (step s i).1 := by
  have h' := inv_stepEvent s i h
  have hf := stepConfig_fields (stepEvent s i).1 i
  show Inv (stepConfig (stepEvent s i).1 i)
  refine ⟨?_, ?_⟩
  · rw [hf.1, hf.2.1]; exact h'.1
  · rw [hf.2.1, hf.2.2.2]; exact h'.2

theorem inv_runLoop (inputs : List TickInput) (s : DaemonSt) (h : Inv s) :
    Inv (runLoop s inputs).st := by
  induction inputs generalizing s with
  | nil => exact h
  | cons i rest ih =>
      unfold runLoop
      split
      · exact h
      · exact ih (step s i).1 (inv_step s i h)

theorem runLoop_cons_eq (s : DaemonSt) (i : TickInput)
    (rest : List TickInput) :
    runLoop s (i :: rest)
      = if i.raiseErr then ⟨s, [], true⟩
        else
          ⟨(runLoop (step s i).1 rest).st,
           (step s i).2 ++ (runLoop (step s i).1 rest).acts,
           (runLoop (step s i).1 rest).exc⟩ := rfl

theorem runLoop_cons_noraise (s : DaemonSt) (i : TickInput)
    (rest : List TickInput) (hr : i.raiseErr = false) :
    runLoop s (i :: rest)
      = ⟨(runLoop (step s i).1 rest).st,
         (step s i).2 ++ (runLoop (step s i).1 rest).acts,
         (runLoop (step s i).1 rest).exc⟩ := by
  rw [runLoop_cons_eq, hr]; rfl

theorem runLoop_cons_raise (s : DaemonSt) (i : TickInput)
    (rest : List TickInput) (hr : i.raiseErr = true) :
    runLoop s (i :: rest) = ⟨s, [], true⟩ := by
  rw [runLoop_cons_eq, hr]; rfl

/-- The frames among a tick's actions. -/
def sends (a : List Act) : List Frame :=
  a.filterMap (fun act =>
    match act with
    | Act.sendFrame f => some f
    | _ => none)

theorem sends_append (a b : List Act) :
    sends (a ++ b) = sends a ++ sends b := by
  simp [sends]

theorem sends_startBlur (s : DaemonSt) (ok : Bool) :
    sends (startBlur s ok).2 = [] := by
  unfold startBlur
  by_cases hseg : s.segmentation.isNone <;> cases ok <;>
    simp [hseg, sends] <;> split <;>
      (intro a ha; fin_cases ha <;> rfl)

theorem sends_stopBlur (s : DaemonSt) :
    sends (stopBlur s).2 = [] := by
  unfold stopBlur
  cases hc : s.cap <;> rfl

theorem sends_stepEvent (s : DaemonSt) (i : TickInput) :
    sends (stepEvent s i).2 = [] := by
  unfold stepEvent
  cases he : i.event with
  | none => rfl
  | some hc =>
      by_cases h1 : (hc && !s.blur_active) = true
      · simp only [h1, if_true]; exact sends_startBlur s i.openOk
      · by_cases h2 : (!hc && s.blur_active) = true
        · simp only [h1, if_false, h2, if_true]; exact sends_stopBlur s
        · simp only [h1, if_false, h2]; rfl

theorem sends_stepFrame (s : DaemonSt) (i : TickInput) :
    sends (stepFrame s i)
      = [if s.blur_active && capIsOpened s.cap then
           (if i.readOk then
              Frame.processed i.frame s.threshold s.blur_strength
            else Frame.filler)
         else Frame.filler] := by
  unfold stepFrame
  by_cases h : (s.blur_active && capIsOpened s.cap) = true <;>
    by_cases hr : i.readOk = true <;> simp [h, hr, sends]

theorem step_st_eq (s : DaemonSt) (i : TickInput) :
    (step s i).1 = stepConfig (stepEvent s i).1 i := rfl

theorem step_acts_eq (s : DaemonSt) (i : TickInput) :
    (step s i).2
      = (stepEvent s i).2
          ++ stepFrame (stepConfig (stepEvent s i).1 i) i := rfl

theorem stepFrame_only_sends (s : DaemonSt) (i : TickInput) :
    ∀ a ∈ stepFrame s i, ∃ f, a = Act.sendFrame f := by
  unfold stepFrame
  split
  · split <;> simp
  · simp

theorem stepEvent_seg_some (s : DaemonSt) (i : TickInput) (x : Nat)
    (h : s.segmentation = some x) :
    (stepEvent s i).1.segmentation = some x
    ∧ Act.createSeg ∉ (stepEvent s i).2 := by
  cases he : i.event with
  | none => rw [stepEvent_none s i he]; exact ⟨h, by simp⟩
  | some hc =>
      cases hc with
      | true =>
          cases hb : s.blur_active with
          | false =>
              rw [stepEvent_attach s i he hb]
              exact startBlur_seg_some s i.openOk x h
          | true =>
              rw [stepEvent_noop_attach s i he hb]; exact ⟨h, by simp⟩
      | false =>
          cases hb : s.blur_active with
          | true =>
              rw [stepEvent_detach s i he hb]
              have hs := stopBlur_spec s
              exact ⟨hs.2.2.1.trans h, hs.2.2.2.2⟩
          | false =>
              rw [stepEvent_noop_detach s i he hb]; exact ⟨h, by simp⟩

theorem step_seg_some (s : DaemonSt) (i : TickInput) (x : Nat)
    (h : s.segmentation = some x) :
    (step s i).1.segmentation = some x
    ∧ Act.createSeg ∉ (step s i).2 := by
  have he := stepEvent_seg_some s i x h
  have hf := stepConfig_fields (stepEvent s i).1 i
  constructor
  · rw [step_st_eq, hf.2.2.1, he.1]
  · rw [step_acts_eq]
    intro hmem
    rcases List.mem_append.mp hmem with hm | hm
    · exact he.2 hm
    · obtain ⟨f, hfm⟩ := stepFrame_only_sends _ i Act.createSeg hm
      exact absurd hfm (by simp)

theorem step_createSeg_mem (s : DaemonSt) (i : TickInput)
    (h : Act.createSeg ∈ (step s i).2) : s.segmentation = none := by
  cases hseg : s.segmentation with
  | none => rfl
  | some x => exact absurd h (step_seg_some s i x hseg).2

/-! ## Concrete scenario ticks -/

/-- A tick observing an attach edge whose webcam open fails. -/
def attachFailTick : TickInput :=
  { event := some true, openOk := false, readOk := false, frame := 0,
    cfgMtime := 0, cfgBlur := 35, cfgThreshold := 0, raiseErr := false }

/-- A tick observing an attach edge whose webcam open succeeds. -/
def attachOkTick : TickInput :=
  { event := some true, openOk := true, readOk := true, frame := 0,
    cfgMtime := 0, cfgBlur := 35, cfgThreshold := 0, raiseErr := false }

/-- A tick observing a detach edge. -/
def detachTick : TickInput :=
  { event := some false, openOk := true, readOk := true, frame := 0,
    cfgMtime := 0, cfgBlur := 35, cfgThreshold := 0, raiseErr := false }

/-- A tick with no consumer event and no config change. -/
def idleTick : TickInput :=
  { event := none, openOk := true, readOk := true, frame := 0,
    cfgMtime := 0, cfgBlur := 35, cfgThreshold := 0, raiseErr := false }

/-- A tick on which an unexpected exception escapes the loop body. -/
def raiseTick : TickInput :=
  { event := some true, openOk := true, readOk := true, frame := 0,
    cfgMtime := 0, cfgBlur := 35, cfgThreshold := 0, raiseErr := true }

/-! ## Claim theorems: the main loop -/

/-- C1 counterexample: starting Idle, one tick observing an attach edge
whose webcam open fails ends with the daemon back in Idle while `cap`
still holds the (unopened) `VideoCapture` object — the capture handle
is NOT null after a failed open attempt in the Idle state, refuting the
claimed "non-null iff Active and last open succeeded". -/
theorem capture_handle_nonnull_refuted :
    (runLoop (initSt 35 0 0) [attachFailTick]).st.blur_active = false
    ∧ (runLoop (initSt 35 0 0) [attachFailTick]).st.cap
        = some { id := 1, opened := false } := by
  decide

/-- C1 (amended): at every reachable point of the main loop the capture
handle is OPEN if and only if the daemon state is Active and the most
recent open attempt succeeded; in particular whenever the state is Idle
no open capture handle is held (though after a failed open attempt the
handle variable still holds the unopened capture object). -/
theorem capture_handle_open_iff (blur0 t0 m0 : Nat)
    (inputs : List TickInput) :
    (capIsOpened (runLoop (initSt blur0 t0 m0) inputs).st.cap = true
      ↔ ((runLoop (initSt blur0 t0 m0) inputs).st.blur_active = true
          ∧ (runLoop (initSt blur0 t0 m0) inputs).st.lastOpenOk
              = some true))
    ∧ ((runLoop (initSt blur0 t0 m0) inputs).st.blur_active = false
        → capIsOpened (runLoop (initSt blur0 t0 m0) inputs).st.cap
            = false) := by
  obtain ⟨h1, h2⟩ :=
    inv_runLoop inputs (initSt blur0 t0 m0) (inv_initSt blur0 t0 m0)
  refine ⟨⟨?_, ?_⟩, ?_⟩
  · intro hcap
    rw [h1] at hcap
    exact ⟨hcap, h2 hcap⟩
  · rintro ⟨hb, -⟩
    rw [h1, hb]
  · intro hb
    rw [h1, hb]

/-- Closed witness for the amended C1 at the empty run: the initial
Idle state holds no open capture handle. -/
theorem capture_handle_open_iff_witness :
    capIsOpened (runLoop (initSt 35 0 0) []).st.cap = false :=
  (capture_handle_open_iff 35 0 0 []).2 rfl

/-- C3: from any reachable Idle state, a tick observing an attach edge
whose webcam open fails logs the failure, ends the tick still in Idle,
still emits this tick's frame (the filler, so the pump keeps running),
and the open is attempted again on the next attach edge event. -/
theorem open_failure_stays_idle (blur0 t0 m0 : Nat)
    (inputs : List TickInput) (i j : TickInput)
    (hb : (runLoop (initSt blur0 t0 m0) inputs).st.blur_active = false)
    (hi : i.event = some true) (hok : i.openOk = false)
    (hj : j.event = some true) :
    (step (runLoop (initSt blur0 t0 m0) inputs).st i).1.blur_active = false
    ∧ Act.logOpenFail ∈ (step (runLoop (initSt blur0 t0 m0) inputs).st i).2
    ∧ sends (step (runLoop (initSt blur0 t0 m0) inputs).st i).2
        = [Frame.filler]
    ∧ Act.openCap j.openOk
        ∈ (step (step (runLoop (initSt blur0 t0 m0) inputs).st i).1 j).2 := by
  set s := (runLoop (initSt blur0 t0 m0) inputs).st with hs
  obtain ⟨h1, h2⟩ :=
    inv_runLoop inputs (initSt blur0 t0 m0) (inv_initSt blur0 t0 m0)
  rw [← hs] at h1 h2
  have hneed : capNeedsOpen s.cap = true := by
    rw [capNeedsOpen_eq, h1, hb]; rfl
  have hev : stepEvent s i = startBlur s i.openOk := stepEvent_attach s i hi hb
  have hsb := startBlur_spec s i.openOk hneed
  obtain ⟨n, hcap⟩ := hsb.2.1
  have hblur1 : (step s i).1.blur_active = false := by
    rw [step_st_eq, (stepConfig_fields _ i).2.1, hev, hsb.1, hok]
  have hcap1 : (step s i).1.cap = some ⟨n, false⟩ := by
    rw [step_st_eq, (stepConfig_fields _ i).1, hev, hcap, hok]
  refine ⟨hblur1, ?_, ?_, ?_⟩
  · rw [step_acts_eq]
    exact List.mem_append_left _ (hev ▸ hsb.2.2.2.2 hok)
  · rw [step_acts_eq, sends_append, sends_stepEvent, sends_stepFrame,
      (stepConfig_fields _ i).2.1, hev, hsb.1, hok]
    rfl
  · have hneed2 : capNeedsOpen (step s i).1.cap = true := by
      rw [hcap1]; rfl
    have hev2 : stepEvent (step s i).1 j = startBlur (step s i).1 j.openOk :=
      stepEvent_attach _ j hj hblur1
    have hsb2 := startBlur_spec (step s i).1 j.openOk hneed2
    rw [step_acts_eq]
    exact List.mem_append_left _ (hev2 ▸ hsb2.2.2.2.1)

/-- Closed witness for C3: from the initial Idle state, the failed-open
tick leaves blur inactive and a second attach retries the open. -/
theorem open_failure_stays_idle_witness :
    (step (runLoop (initSt 35 0 0) []).st attachFailTick).1.blur_active
        = false
    ∧ Act.openCap true
        ∈ (step (step (runLoop (initSt 35 0 0) []).st attachFailTick).1
            attachOkTick).2 := by
  have h := open_failure_stays_idle 35 0 0 [] attachFailTick attachOkTick
    rfl rfl rfl rfl
  exact ⟨h.1, h.2.2.2⟩

/-- C4: on every tick, from any reachable state, exactly one frame is
written to the output device: the processed (mask-composited) frame
when the tick ends Active and the capture read succeeds, and the filler
frame both when the tick ends Idle and when the read fails while
Active; the frame uses the tick's current settings snapshot. -/
theorem one_frame_per_tick (blur0 t0 m0 : Nat)
    (inputs : List TickInput) (i : TickInput) :
    sends (step (runLoop (initSt blur0 t0 m0) inputs).st i).2
      = [if (step (runLoop (initSt blur0 t0 m0) inputs).st i).1.blur_active
          then
            (if i.readOk then
              Frame.processed i.frame
                (step (runLoop (initSt blur0 t0 m0) inputs).st i).1.threshold
                (step (runLoop (initSt blur0 t0 m0) inputs).st
                    i).1.blur_strength
            else Frame.filler)
          else Frame.filler] := by
  set s := (runLoop (initSt blur0 t0 m0) inputs).st with hs
  have hinv : Inv (step s i).1 := by
    refine inv_step s i ?_
    rw [hs]
    exact inv_runLoop inputs (initSt blur0 t0 m0) (inv_initSt blur0 t0 m0)
  rw [step_acts_eq, sends_append, sends_stepEvent, sends_stepFrame]
  rw [show stepConfig (stepEvent s i).1 i = (step s i).1 from rfl]
  rw [hinv.1, Bool.and_self]
  rfl

/-- C5: on an Active→Idle transition the capture handle is released
within that same tick (an explicit release of the open handle's
identity) and set to absent, while the inference handle is left
unchanged; moreover, across every tick of the loop, an inference handle
once present is preserved identically (never released, never replaced)
and a creation only ever happens when the handle is absent — so it is
created at most once and not re-created on a subsequent attach. -/
theorem detach_releases_capture_retains_inference (blur0 t0 m0 : Nat)
    (inputs : List TickInput) (i : TickInput)
    (hb : (runLoop (initSt blur0 t0 m0) inputs).st.blur_active = true)
    (hi : i.event = some false) :
    ((step (runLoop (initSt blur0 t0 m0) inputs).st i).1.cap = none)
    ∧ (∃ c, (runLoop (initSt blur0 t0 m0) inputs).st.cap = some c
        ∧ c.opened = true
        ∧ Act.releaseCap c.id
            ∈ (step (runLoop (initSt blur0 t0 m0) inputs).st i).2)
    ∧ ((step (runLoop (initSt blur0 t0 m0) inputs).st i).1.segmentation
        = (runLoop (initSt blur0 t0 m0) inputs).st.segmentation)
    ∧ (∀ (s : DaemonSt) (j : TickInput) (x : Nat),
        s.segmentation = some x →
          (step s j).1.segmentation = some x
          ∧ Act.createSeg ∉ (step s j).2)
    ∧ (∀ (s : DaemonSt) (j : TickInput),
        Act.createSeg ∈ (step s j).2 → s.segmentation = none) := by
  set s := (runLoop (initSt blur0 t0 m0) inputs).st with hs
  obtain ⟨h1, -⟩ :=
    inv_runLoop inputs (initSt blur0 t0 m0) (inv_initSt blur0 t0 m0)
  rw [← hs] at h1
  have hev : stepEvent s i = stopBlur s := stepEvent_detach s i hi hb
  have hstop := stopBlur_spec s
  obtain ⟨c, hcap, hopen⟩ : ∃ c, s.cap = some c ∧ c.opened = true := by
    cases hc : s.cap with
    | none => rw [hc] at h1; rw [hb] at h1; exact absurd h1 (by simp [capIsOpened])
    | some c =>
        refine ⟨c, rfl, ?_⟩
        rw [hc] at h1; rw [hb] at h1; exact h1
  refine ⟨?_, ⟨c, hcap, hopen, ?_⟩, ?_, step_seg_some, step_createSeg_mem⟩
  · rw [step_st_eq, (stepConfig_fields _ i).1, hev, hstop.2.1]
  · rw [step_acts_eq]
    exact List.mem_append_left _ (hev ▸ hstop.2.2.2.1 c hcap)
  · rw [step_st_eq, (stepConfig_fields _ i).2.2.1, hev, hstop.2.2.1]

/-- Closed witness for C5: after one successful attach tick, the detach
tick releases the (open) capture handle and keeps the inference
handle. -/
theorem detach_releases_capture_witness :
    (step (runLoop (initSt 35 0 0) [attachOkTick]).st detachTick).1.cap
        = none
    ∧ (step (runLoop (initSt 35 0 0) [attachOkTick]).st
        detachTick).1.segmentation
      = (runLoop (initSt 35 0 0) [attachOkTick]).st.segmentation := by
  have h := detach_releases_capture_retains_inference 35 0 0 [attachOkTick]
    detachTick (by decide) rfl
  exact ⟨h.1, h.2.2.1⟩

theorem runLoop_no_events (inputs : List TickInput) (s : DaemonSt)
    (hb : s.blur_active = false) (hc : s.cap = none)
    (hev : ∀ i ∈ inputs, i.event = none)
    (hrr : ∀ i ∈ inputs, i.raiseErr = false) :
    (runLoop s inputs).st.blur_active = false
    ∧ (runLoop s inputs).st.cap = none
    ∧ sends (runLoop s inputs).acts
        = List.replicate inputs.length Frame.filler := by
  induction inputs generalizing s with
  | nil => exact ⟨hb, hc, rfl⟩
  | cons i rest ih =>
      have hi := hev i (List.mem_cons_self i rest)
      have hr := hrr i (List.mem_cons_self i rest)
      rw [runLoop_cons_noraise s i rest hr]
      have hse : stepEvent s i = (s, []) := stepEvent_none s i hi
      have hb2 : (step s i).1.blur_active = false := by
        rw [step_st_eq, (stepConfig_fields _ i).2.1, hse, hb]
      have hc2 : (step s i).1.cap = none := by
        rw [step_st_eq, (stepConfig_fields _ i).1, hse, hc]
      have hrest := ih (step s i).1 hb2 hc2
        (fun k hk => hev k (List.mem_cons_of_mem i hk))
        (fun k hk => hrr k (List.mem_cons_of_mem i hk))
      refine ⟨hrest.1, hrest.2.1, ?_⟩
      show sends ((step s i).2 ++ (runLoop (step s i).1 rest).acts)
        = List.replicate (i :: rest).length Frame.filler
      rw [sends_append, hrest.2.2, step_acts_eq, sends_append,
        sends_stepEvent, sends_stepFrame,
        show stepConfig (stepEvent s i).1 i = (step s i).1 from rfl,
        hb2]
      simp [List.replicate_succ]

/-- C7: when setting up the device watch fails, the watcher logs its
warning and publishes no consumer signal for the rest of the process
lifetime; consequently the main loop, seeing no consumer event on any
tick, never leaves Idle: blur never activates, no webcam handle is ever
acquired, and every tick of the run emits the filler frame. -/
theorem watch_failure_never_active (ns : List Notif) (blur0 t0 m0 : Nat)
    (inputs : List TickInput)
    (hev : ∀ i ∈ inputs, i.event = none)
    (hrr : ∀ i ∈ inputs, i.raiseErr = false) :
    inotify_watcher false ns = ⟨[], true⟩
    ∧ (runLoop (initSt blur0 t0 m0) inputs).st.blur_active = false
    ∧ (runLoop (initSt blur0 t0 m0) inputs).st.cap = none
    ∧ sends (runLoop (initSt blur0 t0 m0) inputs).acts
        = List.replicate inputs.length Frame.filler := by
  exact ⟨rfl, runLoop_no_events inputs (initSt blur0 t0 m0) rfl rfl hev hrr⟩

/-- Closed witness for C7: with a disabled watcher and two uneventful
ticks the daemon emits two filler frames and holds no webcam. -/
theorem watch_failure_never_active_witness :
    inotify_watcher false [Notif.nopen 1] = ⟨[], true⟩
    ∧ sends (runLoop (initSt 35 0 0) [idleTick, idleTick]).acts
        = List.replicate 2 Frame.filler := by
  have h := watch_failure_never_active [Notif.nopen 1] 35 0 0
    [idleTick, idleTick] (by decide) (by decide)
  exact ⟨h.1, h.2.2.2⟩

theorem run_eq_true (s0 : DaemonSt) (inputs : List TickInput) :
    run true true s0 inputs
      = match (runLoop s0 inputs).st.cap with
        | some c =>
            ⟨if (runLoop s0 inputs).exc then 1 else 0,
             { (runLoop s0 inputs).st with cap := none },
             (runLoop s0 inputs).acts ++ [Act.releaseCap c.id]⟩
        | none =>
            ⟨if (runLoop s0 inputs).exc then 1 else 0,
             (runLoop s0 inputs).st, (runLoop s0 inputs).acts⟩ := rfl

/-- C8: on every exit path of the main loop the `finally` block leaves
no capture handle held when `run` returns — and when the loop actually
ran (device present, camera created), an exception escaping the loop
yields return code 1, a normal stop yields 0, and any capture handle
live at loop exit is explicitly released before the return. -/
theorem run_releases_capture_on_exit (de camOk : Bool)
    (blur0 t0 m0 : Nat) (inputs : List TickInput) :
    (run de camOk (initSt blur0 t0 m0) inputs).st.cap = none
    ∧ (de = true → camOk = true →
        ((runLoop (initSt blur0 t0 m0) inputs).exc = true →
          (run de camOk (initSt blur0 t0 m0) inputs).code = 1)
        ∧ ((runLoop (initSt blur0 t0 m0) inputs).exc = false →
          (run de camOk (initSt blur0 t0 m0) inputs).code = 0)
        ∧ (∀ c, (runLoop (initSt blur0 t0 m0) inputs).st.cap = some c →
            Act.releaseCap c.id
              ∈ (run de camOk (initSt blur0 t0 m0) inputs).acts)) := by
  cases de with
  | false => exact ⟨rfl, fun h => nomatch h⟩
  | true =>
      cases camOk with
      | false => exact ⟨rfl, fun _ h => nomatch h⟩
      | true =>
          rw [run_eq_true]
          cases hcap : (runLoop (initSt blur0 t0 m0) inputs).st.cap with
          | none =>
              refine ⟨hcap, fun _ _ => ⟨?_, ?_, ?_⟩⟩
              · intro hexc; simp [hexc]
              · intro hexc; simp [hexc]
              · intro c hc; exact nomatch hc
          | some c =>
              refine ⟨rfl, fun _ _ => ⟨?_, ?_, ?_⟩⟩
              · intro hexc; simp [hexc]
              · intro hexc; simp [hexc]
              · intro c' hc'
                obtain rfl : c = c' := by injection hc'
                show Act.releaseCap c.id
                  ∈ (runLoop (initSt blur0 t0 m0) inputs).acts
                      ++ [Act.releaseCap c.id]
                exact List.mem_append_right _ (by simp)

/-- Closed witness for C8: a successful attach tick followed by a tick
raising an unexpected exception yields return code 1 and an explicit
release of the capture handle acquired on the attach. -/
theorem run_releases_capture_witness :
    (run true true (initSt 35 0 0) [attachOkTick, raiseTick]).code = 1
    ∧ Act.releaseCap 1
        ∈ (run true true (initSt 35 0 0) [attachOkTick, raiseTick]).acts := by
  have h := run_releases_capture_on_exit true true 35 0 0
    [attachOkTick, raiseTick]
  exact ⟨(h.2 rfl rfl).1 (by decide),
    (h.2 rfl rfl).2.2 ⟨1, true⟩ (by decide)⟩

/-- C9: a tick that applies a configuration change (a newer mtime) and
carries no consumer event updates only the per-frame parameters —
`blur_strength` becomes the odd-adjusted new blur and `threshold` the
new threshold — while the capture handle and the inference handle are
unchanged with the same identity, and no open, release, or model
creation is performed by the tick. -/
theorem config_change_preserves_handles (blur0 t0 m0 : Nat)
    (inputs : List TickInput) (i : TickInput)
    (hev : i.event = none)
    (hm : (runLoop (initSt blur0 t0 m0) inputs).st.config_mtime
        < i.cfgMtime) :
    ((step (runLoop (initSt blur0 t0 m0) inputs).st i).1.cap
        = (runLoop (initSt blur0 t0 m0) inputs).st.cap)
    ∧ ((step (runLoop (initSt blur0 t0 m0) inputs).st i).1.segmentation
        = (runLoop (initSt blur0 t0 m0) inputs).st.segmentation)
    ∧ ((step (runLoop (initSt blur0 t0 m0) inputs).st i).1.blur_strength
        = adjustOdd i.cfgBlur)
    ∧ ((step (runLoop (initSt blur0 t0 m0) inputs).st i).1.threshold
        = i.cfgThreshold)
    ∧ (∀ n, Act.releaseCap n
        ∉ (step (runLoop (initSt blur0 t0 m0) inputs).st i).2)
    ∧ (∀ ok, Act.openCap ok
        ∉ (step (runLoop (initSt blur0 t0 m0) inputs).st i).2)
    ∧ Act.createSeg
        ∉ (step (runLoop (initSt blur0 t0 m0) inputs).st i).2 := by
  set s := (runLoop (initSt blur0 t0 m0) inputs).st with hs
  have hse : stepEvent s i = (s, []) := stepEvent_none s i hev
  have hcfg : stepConfig s i
      = { s with
          config_mtime := i.cfgMtime
          blur_strength := adjustOdd i.cfgBlur
          threshold := i.cfgThreshold } := by
    unfold stepConfig
    rw [if_pos hm]
  have hacts : (step s i).2 = stepFrame (stepConfig s i) i := by
    rw [step_acts_eq, hse]
    rfl
  have honly : ∀ a ∈ (step s i).2, ∃ f, a = Act.sendFrame f := by
    rw [hacts]; exact stepFrame_only_sends _ i
  refine ⟨?_, ?_, ?_, ?_, ?_, ?_, ?_⟩
  · rw [step_st_eq, hse]
    show (stepConfig s i).cap = s.cap
    rw [hcfg]
  · rw [step_st_eq, hse]
    show (stepConfig s i).segmentation = s.segmentation
    rw [hcfg]
  · rw [step_st_eq, hse]
    show (stepConfig s i).blur_strength = adjustOdd i.cfgBlur
    rw [hcfg]
  · rw [step_st_eq, hse]
    show (stepConfig s i).threshold = i.cfgThreshold
    rw [hcfg]
  · intro n hmem
    obtain ⟨f, hf⟩ := honly _ hmem
    exact absurd hf (by simp)
  · intro ok hmem
    obtain ⟨f, hf⟩ := honly _ hmem
    exact absurd hf (by simp)
  · intro hmem
    obtain ⟨f, hf⟩ := honly _ hmem
    exact absurd hf (by simp)

/-- A config-reload tick: no consumer event, newer mtime, new blur 40
(odd-adjusted to 41) and new threshold 7. -/
def cfgTick : TickInput :=
  { event := none, openOk := true, readOk := true, frame := 0,
    cfgMtime := 1, cfgBlur := 40, cfgThreshold := 7, raiseErr := false }

/-- Closed witness for C9: from the initial state, the reload tick
refreshes the parameters and leaves both handles unchanged. -/
theorem config_change_preserves_handles_witness :
    ((step (runLoop (initSt 35 0 0) []).st cfgTick).1.blur_strength = 41)
    ∧ ((step (runLoop (initSt 35 0 0) []).st cfgTick).1.cap
        = (runLoop (initSt 35 0 0) []).st.cap) := by
  have h := config_change_preserves_handles 35 0 0 [] cfgTick rfl
    (by decide)
  exact ⟨h.2.2.1, h.1⟩

end Blurcam
